import Mathlib

/-!
Verification of the mailcow-cli batch engine and response interpretation,
modelled shallowly from `mailcow_cli.py`.
-/

namespace Mailcow

/-! ## Python JSON-like values

`MailcowClient._request` returns `response.json()`, which is an arbitrary
JSON value (string, number, boolean, null, object, array).  `PyVal` models
those values; integers stand in for JSON numbers. -/

inductive PyVal where
  | vstr (s : String)
  | vint (n : Int)
  | vbool (b : Bool)
  | vnone
  | vlist (elems : List PyVal)
  | vdict (fields : List (String × PyVal))

/-- Python truthiness (`if not result`): empty containers, empty strings,
zero, `False` and `None` are falsy. -/
def PyVal.truthy : PyVal → Bool
  | .vstr s => !s.isEmpty
  | .vint n => n ≠ 0
  | .vbool b => b
  | .vnone => false
  | .vlist l => !l.isEmpty
  | .vdict f => !f.isEmpty

/-- The single-quote character, used by Python `repr` of strings. -/
def pyQuote : String := String.singleton (Char.ofNat 39)

mutual

/-- Python `repr` of a value (string escaping inside `repr` is not modelled;
no claim depends on it). -/
def pyRepr : PyVal → String
  | .vstr s => pyQuote ++ s ++ pyQuote
  | .vint n => toString n
  | .vbool b => cond b "True" "False"
  | .vnone => "None"
  | .vlist l => "[" ++ pyReprElems l ++ "]"
  | .vdict f => "\x7b" ++ pyReprFields f ++ "\x7d"

/-- Comma-separated `repr`s of list elements. -/
def pyReprElems : List PyVal → String
  | [] => ""
  | [x] => pyRepr x
  | x :: y :: xs => pyRepr x ++ ", " ++ pyReprElems (y :: xs)

/-- Comma-separated `repr`s of dict entries. -/
def pyReprFields : List (String × PyVal) → String
  | [] => ""
  | [(k, v)] => pyQuote ++ k ++ pyQuote ++ ": " ++ pyRepr v
  | (k, v) :: e :: xs =>
      pyQuote ++ k ++ pyQuote ++ ": " ++ pyRepr v ++ ", " ++ pyReprFields (e :: xs)

end

/-- Python `str` of a value: the string itself for strings, `repr` for
containers and other values (the shapes reaching `str(result)` here). -/
def pyStr : PyVal → String
  | .vstr s => s
  | v => pyRepr v

/-- Python `dict.get(k)`: first binding for the key, if any. -/
def pyGet (f : List (String × PyVal)) (k : String) : Option PyVal :=
  (f.find? (fun p => p.1 == k)).map Prod.snd

/-- `v == 'success'` for a Python value: true exactly on the string
`"success"`. -/
def isSuccessVal : PyVal → Bool
  | .vstr s => s == "success"
  | _ => false

/-- `' '.join(xs)` succeeds only when every element is a string. -/
def allStrs : List PyVal → Option (List String)
  | [] => some []
  | .vstr s :: xs => (allStrs xs).map (s :: ·)
  | _ => none

/-- Result of `MailcowClient._check_response`: either a `(success, msg)`
pair (the message is the raw Python value, since `first.get('msg', ...)`
may return a non-string) or a `TypeError` raised by `' '.join(result)`
when the list mixes strings with non-strings. -/
inductive CheckResult where
  | ok (success : Bool) (msg : PyVal)
  | typeError

/-- `MailcowClient._check_response`, translated clause by clause:
falsy result → `(False, "Empty response")`; non-empty list with dict head →
success iff `type == 'success'`, message `msg` or `str(result)`; non-empty
list with string head → `(False, ' '.join(result))` (both the sentinel and
the fallback branch of the Python code return this same value, and `join`
raises `TypeError` on non-string elements); anything else →
`(False, str(result))`. -/
def check_response (result : PyVal) : CheckResult :=
  if result.truthy then
    match result with
    | .vlist (first :: rest) =>
      match first with
      | .vdict f =>
          let t := (pyGet f "type").getD (.vstr "unknown")
          let m := (pyGet f "msg").getD (.vstr (pyStr result))
          .ok (isSuccessVal t) m
      | .vstr s =>
          match allStrs rest with
          | some strs => .ok false (.vstr (String.intercalate " " (s :: strs)))
          | none => .typeError
      | _ => .ok false (.vstr (pyStr result))
    | _ => .ok false (.vstr (pyStr result))
  else .ok false (.vstr "Empty response")

/-! ## String helpers

Structural models of Python `str.strip()` and `str.lower()` (the library
`String.trim`/`String.toLower` are not used because batch validation must
stay evaluable). -/

/-- Drop leading whitespace characters. -/
def dropWs : List Char → List Char
  | [] => []
  | c :: cs => if c.isWhitespace then dropWs cs else c :: cs

/-- Python `str.strip()`: remove leading and trailing whitespace. -/
def pyStrip (s : String) : String :=
  String.mk ((dropWs (dropWs s.toList).reverse).reverse)

/-- Python `str.lower()` (the header keywords are ASCII). -/
def pyLower (s : String) : String :=
  String.mk (s.toList.map Char.toLower)

/-! ## Display-name generator (`name_from_local_part`) -/

/-- The separator class of `re.split(r'[._-]', lp)`. -/
def sepChar (c : Char) : Bool := c == '.' || c == '_' || c == '-'

/-- `re.split` on a character class: split at every separator occurrence,
keeping the (possibly empty) segments between consecutive separators. -/
def reSplit : List Char → List (List Char)
  | [] => [[]]
  | c :: rest =>
    match reSplit rest with
    | [] => [[]]
    | s :: ss => if sepChar c then [] :: s :: ss else (c :: s) :: ss

/-- Python `str.capitalize`: first character uppercased, the rest
lowercased. -/
def pyCapitalize : List Char → List Char
  | [] => []
  | c :: cs => c.toUpper :: cs.map Char.toLower

/-- `name_from_local_part`: split the local part on `.`/`_`/`-`, drop empty
segments, capitalize each segment, join with single spaces. -/
def name_from_local_part (lp : String) : String :=
  String.intercalate " "
    (((reSplit lp.toList).filter (fun seg => !seg.isEmpty)).map
      (fun seg => String.mk (pyCapitalize seg)))

/-- The display-name generator as the spec words it, built on the library
splitter `List.splitOnP` instead of the hand-rolled `re.split` model:
split on any of the separators, drop empty segments, capitalize each
remaining segment, join with single spaces. -/
def specDisplayName (lp : String) : String :=
  String.intercalate " "
    (((lp.toList.splitOnP sepChar).filter (fun seg => !seg.isEmpty)).map
      (fun seg => String.mk (pyCapitalize seg)))

/-! ## Password generator (`generate_password`) -/

def lowercaseChars : List Char := "abcdefghijklmnopqrstuvwxyz".toList

def uppercaseChars : List Char := "ABCDEFGHIJKLMNOPQRSTUVWXYZ".toList

def digitChars : List Char := "0123456789".toList

def specialChars : List Char := "!@#$%&*".toList

def alphabetChars : List Char :=
  lowercaseChars ++ uppercaseChars ++ digitChars ++ specialChars

/-- `secrets.choice(s)` given the draw `n` from the random source: any
element of `s` is reachable by some draw. -/
def pyChoice (s : List Char) (n : Nat) : Char := s.getD (n % s.length) ' '

/-- `x[i], x[j] = x[j], x[i]`. -/
def swapL (l : List Char) (i j : Nat) : List Char :=
  (l.set i (l.getD j ' ')).set j (l.getD i ' ')

/-- `random.shuffle` (Fisher–Yates): for `i = n-1, …, 1`, swap `x[i]` with
`x[j]` where `j` is a draw reduced modulo `i+1`. -/
def fyGo (d : Nat → Nat) : Nat → List Char → List Char
  | 0, l => l
  | i + 1, l => fyGo d i (swapL l (i + 1) (d (i + 1) % (i + 2)))

/-- Shuffle the whole list. -/
def pyShuffle (d : Nat → Nat) (l : List Char) : List Char :=
  fyGo d (l.length - 1) l

/-- `generate_password(length)`: one guaranteed draw from each character
class, `length - 4` draws from the full alphabet, then a shuffle.  `d` is
the sequence of draws taken from the random source. -/
def generate_password (d : Nat → Nat) (len : Nat) : List Char :=
  let base := [pyChoice lowercaseChars (d 0), pyChoice uppercaseChars (d 1),
               pyChoice digitChars (d 2), pyChoice specialChars (d 3)]
  let rest := (List.range (len - 4)).map (fun k => pyChoice alphabetChars (d (4 + k)))
  pyShuffle (fun i => d (len + i)) (base ++ rest)

/-! ## Batch engine -/

/-- One gateway call either exits the process (`_request` calls
`sys.exit(1)` on any `requests` transport error: connection error,
timeout, or non-2xx HTTP status), raises some other exception, or
returns the decoded JSON body. -/
inductive GwResult where
  | exit
  | exc (msg : String)
  | ok (v : PyVal)

/-- Per-row outcome: an accepted/created row carrying the submitted
row-derived fields, a validation rejection, or an API/exception failure.
`accepted` is what `success_count` counts; the other two are what
`error_count` counts. -/
inductive Outcome where
  | accepted (payload : List (String × String))
  | rejected (reason : String)
  | failed (msg : String)

/-- What the per-row validation decides before any gateway call. -/
inductive RowAction where
  | skipBlank
  | skipHeader
  | reject (reason : String)
  | acceptNoCall (payload : List (String × String))
  | submit (payload : List (String × String))

/-- `if not row or all(not cell.strip() for cell in row)`. -/
def isBlankRow (row : List String) : Bool :=
  row.isEmpty || row.all (fun c => pyStrip c == "")

/-- `row[0].lower()` (rows reaching this check are non-empty). -/
def headLower (row : List String) : String := pyLower (row.headD "")

def jobsHeaderKeys : List String := ["user1", "source", "src_user", "email"]

def mailboxHeaderKeys : List String :=
  ["local_part", "localpart", "email", "username", "user"]

def aliasHeaderKeys : List String := ["address", "alias", "source", "from"]

def transportHeaderKeys : List String := ["destination", "dest", "domain"]

/-- Row handling of `jobs add` batch mode: blank and first-row-header
skips, the 3-column minimum, trimming, required-field checks, then
preview or submission of `user1`/`password1`/`username`. -/
def jobsAction (preview : Bool) (idx : Nat) (row : List String) : RowAction :=
  if isBlankRow row then .skipBlank
  else if idx == 1 && jobsHeaderKeys.contains (headLower row) then .skipHeader
  else if row.length < 3 then .reject "need 3 columns (user1,password1,username)"
  else
    let u1 := pyStrip (row.getD 0 "")
    let p1 := pyStrip (row.getD 1 "")
    let un := pyStrip (row.getD 2 "")
    if u1 == "" || p1 == "" || un == "" then .reject "empty required field"
    else if preview then .acceptNoCall [("user1", u1), ("password1", p1), ("username", un)]
    else .submit [("user1", u1), ("password1", p1), ("username", un)]

/-- Row handling of `mailbox add` batch mode.  `gpw idx` is the password
`generate_password()` returns if row `idx` generates one.  A missing
password column and a blank password cell both leave `pw` falsy; the name
falls back to `name_from_local_part`. -/
def mailboxAction (preview genPassword : Bool) (gpw : Nat → String)
    (idx : Nat) (row : List String) : RowAction :=
  if isBlankRow row then .skipBlank
  else if idx == 1 && mailboxHeaderKeys.contains (headLower row) then .skipHeader
  else
    let lp := pyStrip (row.getD 0 "")
    let nm0 := if row.length > 1 then pyStrip (row.getD 1 "") else ""
    let pw0 := if row.length > 2 then pyStrip (row.getD 2 "") else ""
    if lp == "" then .reject "empty local_part"
    else if pw0 == "" && !genPassword then .reject "no password (use --gen-password)"
    else
      let pw := if pw0 == "" then gpw idx else pw0
      let nm := if nm0 == "" then name_from_local_part lp else nm0
      if preview then .acceptNoCall [("local_part", lp), ("name", nm), ("password", pw)]
      else .submit [("local_part", lp), ("name", nm), ("password", pw)]

/-- Row handling of `alias add` batch mode. -/
def aliasAction (preview : Bool) (idx : Nat) (row : List String) : RowAction :=
  if isBlankRow row then .skipBlank
  else if idx == 1 && aliasHeaderKeys.contains (headLower row) then .skipHeader
  else if row.length < 2 then .reject "need 2 columns (address,goto)"
  else
    let addr := pyStrip (row.getD 0 "")
    let gt := pyStrip (row.getD 1 "")
    if addr == "" || gt == "" then .reject "empty address or goto"
    else if preview then .acceptNoCall [("address", addr), ("goto", gt)]
    else .submit [("address", addr), ("goto", gt)]

/-- Row handling of `transport add` batch mode: optional third and fourth
columns default to the empty string. -/
def transportAction (preview : Bool) (idx : Nat) (row : List String) : RowAction :=
  if isBlankRow row then .skipBlank
  else if idx == 1 && transportHeaderKeys.contains (headLower row) then .skipHeader
  else if row.length < 2 then .reject "need at least 2 columns (destination,nexthop)"
  else
    let dest := pyStrip (row.getD 0 "")
    let nh := pyStrip (row.getD 1 "")
    let user := if row.length > 2 then pyStrip (row.getD 2 "") else ""
    let passwd := if row.length > 3 then pyStrip (row.getD 3 "") else ""
    if dest == "" || nh == "" then .reject "empty destination or nexthop"
    else if preview then
      .acceptNoCall [("destination", dest), ("nexthop", nh), ("username", user), ("password", passwd)]
    else .submit [("destination", dest), ("nexthop", nh), ("username", user), ("password", passwd)]

/-- Outcome of one gateway submission.  `checked` is true for the mailbox,
alias and transport commands, which interpret the body through
`_check_response`; the sync-job command does not interpret it at all.
`none` models the process exiting via `SystemExit`, which the per-row
`except Exception` does not catch; a `TypeError` raised inside
`_check_response` is an `Exception` and is caught. -/
def submitResult (checked : Bool) (payload : List (String × String)) : GwResult → Option Outcome
  | .exit => none
  | .exc m => some (.failed m)
  | .ok v =>
    if checked then
      match check_response v with
      | .ok true _ => some (.accepted payload)
      | .ok false m => some (.failed (pyStr m))
      | .typeError => some (.failed "TypeError")
    else some (.accepted payload)

/-- The batch loop over the parsed CSV rows.  `idx` is the 1-based row
number, `calls` the number of gateway calls made so far; the result is
`none` when the process exited mid-batch, otherwise the ordered list of
outcomes together with the total number of gateway calls made. -/
def runRows (act : Nat → List String → RowAction) (checked : Bool) (gw : Nat → GwResult) :
    List (List String) → Nat → Nat → Option (List Outcome × Nat)
  | [], _, calls => some ([], calls)
  | row :: rest, idx, calls =>
    match act idx row with
    | .skipBlank => runRows act checked gw rest (idx + 1) calls
    | .skipHeader => runRows act checked gw rest (idx + 1) calls
    | .reject r => (runRows act checked gw rest (idx + 1) calls).map (fun p => (.rejected r :: p.1, p.2))
    | .acceptNoCall pl =>
        (runRows act checked gw rest (idx + 1) calls).map (fun p => (.accepted pl :: p.1, p.2))
    | .submit pl =>
      match submitResult checked pl (gw calls) with
      | none => none
      | some o => (runRows act checked gw rest (idx + 1) (calls + 1)).map (fun p => (o :: p.1, p.2))

/-- `jobs add -f` batch mode (responses are never interpreted). -/
def jobs_add_batch (preview : Bool) (gw : Nat → GwResult) (rows : List (List String)) :
    Option (List Outcome × Nat) :=
  runRows (jobsAction preview) false gw rows 1 0

/-- `mailbox add -f` batch mode (responses go through `_check_response`). -/
def mailbox_add_batch (preview genPassword : Bool) (gpw : Nat → String)
    (gw : Nat → GwResult) (rows : List (List String)) : Option (List Outcome × Nat) :=
  runRows (mailboxAction preview genPassword gpw) true gw rows 1 0

/-- `alias add -f` batch mode (responses go through `_check_response`). -/
def alias_add_batch (preview : Bool) (gw : Nat → GwResult) (rows : List (List String)) :
    Option (List Outcome × Nat) :=
  runRows (aliasAction preview) true gw rows 1 0

/-- `transport add -f` batch mode (responses go through `_check_response`). -/
def transport_add_batch (preview : Bool) (gw : Nat → GwResult) (rows : List (List String)) :
    Option (List Outcome × Nat) :=
  runRows (transportAction preview) true gw rows 1 0

/-- Single-mode `jobs add` result handling: the response is only tested
for truthiness (`if result:`); `some true` is the success message,
`some false` the failure message, `none` an aborted invocation
(`SystemExit` from `_request`, or an uncaught exception). -/
def jobs_add_single : GwResult → Option Bool
  | .exit => none
  | .exc _ => none
  | .ok v => some v.truthy

/-- `success_count`: one per accepted outcome. -/
def succCount : List Outcome → Nat
  | [] => 0
  | .accepted _ :: os => succCount os + 1
  | .rejected _ :: os => succCount os
  | .failed _ :: os => succCount os

/-- `error_count`: one per rejected or failed outcome. -/
def errCount : List Outcome → Nat
  | [] => 0
  | .accepted _ :: os => errCount os
  | .rejected _ :: os => errCount os + 1
  | .failed _ :: os => errCount os + 1

/-- A row that is neither blank nor a recognized first-row header. -/
def countedRow (hdr : List String) (idx : Nat) (row : List String) : Bool :=
  !isBlankRow row && !(idx == 1 && hdr.contains (headLower row))

/-- Number of input rows that are neither blank nor a recognized
first-position header row, starting the numbering at `idx`. -/
def numCounted (hdr : List String) : List (List String) → Nat → Nat
  | [], _ => 0
  | row :: rest, idx =>
    (if countedRow hdr idx row then 1 else 0) + numCounted hdr rest (idx + 1)

/-- The success flag carried by a `CheckResult` (a raised `TypeError`
reports no success). -/
def checkSuccess : CheckResult → Bool
  | .ok b _ => b
  | .typeError => false

/-- Success of a response as the spec words it: the response is a
non-empty sequence whose first element is a mapping whose `type` field is
the literal string `"success"`. -/
def specIsSuccessResponse : PyVal → Bool
  | .vlist (.vdict f :: _) =>
    match pyGet f "type" with
    | some (.vstr t) => t == "success"
    | _ => false
  | _ => false

/-- The payload a row action would preview or submit, if any. -/
def RowAction.payload : RowAction → Option (List (String × String))
  | .acceptNoCall pl => some pl
  | .submit pl => some pl
  | _ => none

/-- Look up a field of a normalized request. -/
def fieldOf (pl : List (String × String)) (k : String) : Option String :=
  (pl.find? (fun q => q.1 == k)).map Prod.snd

/-- The password field a row action would preview or submit, if any. -/
def actionPassword (a : RowAction) : Option String :=
  a.payload.bind (fun pl => fieldOf pl "password")

/-- A structured success reply from the API. -/
def successResponse : PyVal :=
  .vlist [.vdict [("type", .vstr "success"), ("msg", .vstr "ok")]]

/-- A structured error reply from the API. -/
def errorResponse : PyVal :=
  .vlist [.vdict [("type", .vstr "error"), ("msg", .vstr "bad")]]

/-- A gateway that always answers with a structured success reply. -/
def gwSuccess : Nat → GwResult := fun _ => .ok successResponse

/-- A gateway that always answers with a structured error reply. -/
def gwError : Nat → GwResult := fun _ => .ok errorResponse

/-- A gateway whose every call fails at the transport level (connection
error, timeout, or non-2xx status): `_request` prints the error and calls
`sys.exit(1)`. -/
def gwTransportFail : Nat → GwResult := fun _ => .exit

/-! ## Counting lemmas -/

theorem succCount_add_errCount (os : List Outcome) :
    succCount os + errCount os = os.length := by
  induction os with
  | nil => rfl
  | cons o os ih => cases o <;> simp [succCount, errCount] <;> omega

theorem jobsAction_skip_iff (preview : Bool) (idx : Nat) (row : List String) :
    (jobsAction preview idx row = .skipBlank ∨ jobsAction preview idx row = .skipHeader) ↔
      countedRow jobsHeaderKeys idx row = false := by
  simp only [jobsAction]
  split_ifs <;> simp_all [countedRow]

theorem mailboxAction_skip_iff (preview gen : Bool) (gpw : Nat → String)
    (idx : Nat) (row : List String) :
    (mailboxAction preview gen gpw idx row = .skipBlank ∨
        mailboxAction preview gen gpw idx row = .skipHeader) ↔
      countedRow mailboxHeaderKeys idx row = false := by
  simp only [mailboxAction]
  split_ifs <;> simp_all [countedRow]

theorem aliasAction_skip_iff (preview : Bool) (idx : Nat) (row : List String) :
    (aliasAction preview idx row = .skipBlank ∨ aliasAction preview idx row = .skipHeader) ↔
      countedRow aliasHeaderKeys idx row = false := by
  simp only [aliasAction]
  split_ifs <;> simp_all [countedRow]

theorem transportAction_skip_iff (preview : Bool) (idx : Nat) (row : List String) :
    (transportAction preview idx row = .skipBlank ∨
        transportAction preview idx row = .skipHeader) ↔
      countedRow transportHeaderKeys idx row = false := by
  simp only [transportAction]
  split_ifs <;> simp_all [countedRow]

theorem runRows_length (hdr : List String) (act : Nat → List String → RowAction)
    (checked : Bool) (gw : Nat → GwResult)
    (hact : ∀ i r, (act i r = .skipBlank ∨ act i r = .skipHeader) ↔ countedRow hdr i r = false) :
    ∀ (rows : List (List String)) (idx calls : Nat) (os : List Outcome) (c : Nat),
      runRows act checked gw rows idx calls = some (os, c) →
      os.length = numCounted hdr rows idx := by
  intro rows
  induction rows with
  | nil =>
    intro idx calls os c h
    simp only [runRows, Option.some_inj, Prod.mk.injEq] at h
    simp [← h.1, numCounted]
  | cons row rest ih =>
    intro idx calls os c h
    have hcT : act idx row ≠ .skipBlank → act idx row ≠ .skipHeader →
        countedRow hdr idx row = true := by
      intro h1 h2
      by_contra hcc
      simp only [Bool.not_eq_true] at hcc
      rcases (hact idx row).mpr hcc with h' | h'
      · exact h1 h'
      · exact h2 h'
    simp only [runRows] at h
    split at h
    next hA =>
      have hc := (hact idx row).mp (Or.inl hA)
      simp only [numCounted, hc, if_false, Bool.false_eq_true, Nat.zero_add]
      exact ih (idx + 1) calls os c h
    next hA =>
      have hc := (hact idx row).mp (Or.inr hA)
      simp only [numCounted, hc, if_false, Bool.false_eq_true, Nat.zero_add]
      exact ih (idx + 1) calls os c h
    next r hA =>
      have hc := hcT (by simp [hA]) (by simp [hA])
      rcases Option.map_eq_some'.mp h with ⟨⟨osr, cr⟩, hrec, hf⟩
      simp only [Prod.mk.injEq] at hf
      simp only [numCounted, hc, if_true, ← hf.1, List.length_cons]
      have := ih (idx + 1) calls osr cr hrec
      omega
    next pl hA =>
      have hc := hcT (by simp [hA]) (by simp [hA])
      rcases Option.map_eq_some'.mp h with ⟨⟨osr, cr⟩, hrec, hf⟩
      simp only [Prod.mk.injEq] at hf
      simp only [numCounted, hc, if_true, ← hf.1, List.length_cons]
      have := ih (idx + 1) calls osr cr hrec
      omega
    next pl hA =>
      have hc := hcT (by simp [hA]) (by simp [hA])
      split at h
      · exact Option.noConfusion h
      next o hS =>
        rcases Option.map_eq_some'.mp h with ⟨⟨osr, cr⟩, hrec, hf⟩
        simp only [Prod.mk.injEq] at hf
        simp only [numCounted, hc, if_true, ← hf.1, List.length_cons]
        have := ih (idx + 1) (calls + 1) osr cr hrec
        omega

/-! ## Preview-mode lemmas -/

theorem jobsAction_preview_no_submit (idx : Nat) (row : List String)
    (pl : List (String × String)) : jobsAction true idx row ≠ .submit pl := by
  simp only [jobsAction]
  split_ifs <;> simp

theorem mailboxAction_preview_no_submit (gen : Bool) (gpw : Nat → String) (idx : Nat)
    (row : List String) (pl : List (String × String)) :
    mailboxAction true gen gpw idx row ≠ .submit pl := by
  simp only [mailboxAction]
  split_ifs <;> simp

theorem aliasAction_preview_no_submit (idx : Nat) (row : List String)
    (pl : List (String × String)) : aliasAction true idx row ≠ .submit pl := by
  simp only [aliasAction]
  split_ifs <;> simp

theorem transportAction_preview_no_submit (idx : Nat) (row : List String)
    (pl : List (String × String)) : transportAction true idx row ≠ .submit pl := by
  simp only [transportAction]
  split_ifs <;> simp

theorem runRows_no_submit (act : Nat → List String → RowAction) (checked : Bool)
    (gw : Nat → GwResult) (hns : ∀ i r pl, act i r ≠ .submit pl) :
    ∀ (rows : List (List String)) (idx calls : Nat),
      ∃ os, runRows act checked gw rows idx calls = some (os, calls) := by
  intro rows
  induction rows with
  | nil => intro idx calls; exact ⟨[], rfl⟩
  | cons row rest ih =>
    intro idx calls
    obtain ⟨os, hos⟩ := ih (idx + 1) calls
    cases hA : act idx row
    case skipBlank => exact ⟨os, by simp [runRows, hA, hos]⟩
    case skipHeader => exact ⟨os, by simp [runRows, hA, hos]⟩
    case reject r => exact ⟨.rejected r :: os, by simp [runRows, hA, hos]⟩
    case acceptNoCall pl => exact ⟨.accepted pl :: os, by simp [runRows, hA, hos]⟩
    case submit pl => exact absurd hA (hns idx row pl)

theorem runRows_no_submit_outcomes (act : Nat → List String → RowAction) (checked : Bool)
    (gw : Nat → GwResult) (hns : ∀ i r pl, act i r ≠ .submit pl) :
    ∀ (rows : List (List String)) (idx calls : Nat) (os : List Outcome) (c : Nat),
      runRows act checked gw rows idx calls = some (os, c) →
      ∀ o ∈ os, (∃ pl, o = .accepted pl) ∨ (∃ rsn, o = .rejected rsn) := by
  intro rows
  induction rows with
  | nil =>
    intro idx calls os c h o ho
    simp only [runRows, Option.some_inj, Prod.mk.injEq] at h
    rw [← h.1] at ho
    exact absurd ho (List.not_mem_nil o)
  | cons row rest ih =>
    intro idx calls os c h o ho
    simp only [runRows] at h
    split at h
    next => exact ih (idx + 1) calls os c h o ho
    next => exact ih (idx + 1) calls os c h o ho
    next r hA =>
      rcases Option.map_eq_some'.mp h with ⟨⟨osr, cr⟩, hrec, hf⟩
      simp only [Prod.mk.injEq] at hf
      rw [← hf.1] at ho
      rcases List.mem_cons.mp ho with rfl | hmem
      · exact Or.inr ⟨r, rfl⟩
      · exact ih (idx + 1) calls osr cr hrec o hmem
    next pl hA =>
      rcases Option.map_eq_some'.mp h with ⟨⟨osr, cr⟩, hrec, hf⟩
      simp only [Prod.mk.injEq] at hf
      rw [← hf.1] at ho
      rcases List.mem_cons.mp ho with rfl | hmem
      · exact Or.inl ⟨pl, rfl⟩
      · exact ih (idx + 1) calls osr cr hrec o hmem
    next pl hA => exact absurd hA (hns idx row pl)

theorem runRows_gw_indep (act : Nat → List String → RowAction) (checked : Bool)
    (gw gw' : Nat → GwResult) (hns : ∀ i r pl, act i r ≠ .submit pl) :
    ∀ (rows : List (List String)) (idx calls : Nat),
      runRows act checked gw rows idx calls = runRows act checked gw' rows idx calls := by
  intro rows
  induction rows with
  | nil => intro idx calls; rfl
  | cons row rest ih =>
    intro idx calls
    cases hA : act idx row
    case skipBlank => simp [runRows, hA, ih]
    case skipHeader => simp [runRows, hA, ih]
    case reject r => simp [runRows, hA, ih]
    case acceptNoCall pl => simp [runRows, hA, ih]
    case submit pl => exact absurd hA (hns idx row pl)

/-! ## Response-interpretation lemmas -/

theorem checkSuccess_eq_spec (r : PyVal) :
    checkSuccess (check_response r) = specIsSuccessResponse r := by
  cases r with
  | vstr s =>
    simp only [check_response, checkSuccess, specIsSuccessResponse]
    split_ifs <;> rfl
  | vint n =>
    simp only [check_response, checkSuccess, specIsSuccessResponse]
    split_ifs <;> rfl
  | vbool b =>
    simp only [check_response, checkSuccess, specIsSuccessResponse]
    split_ifs <;> rfl
  | vnone => rfl
  | vdict f =>
    simp only [check_response, checkSuccess, specIsSuccessResponse]
    split_ifs <;> rfl
  | vlist l =>
    cases l with
    | nil => rfl
    | cons first rest =>
      cases first with
      | vdict f =>
        cases hg : pyGet f "type" with
        | none =>
          simp [check_response, specIsSuccessResponse, checkSuccess, PyVal.truthy, hg,
            isSuccessVal]
        | some t =>
          cases t <;>
            simp [check_response, specIsSuccessResponse, checkSuccess, PyVal.truthy, hg,
              isSuccessVal]
      | vstr s =>
        cases hA : allStrs rest <;>
          simp [check_response, specIsSuccessResponse, checkSuccess, PyVal.truthy, hA]
      | vint n => rfl
      | vbool b => rfl
      | vnone => rfl
      | vlist l' => rfl

/-! ## Display-name lemmas -/

theorem reSplit_eq_splitOnP (l : List Char) : reSplit l = l.splitOnP sepChar := by
  induction l with
  | nil => simp [reSplit, List.splitOnP_nil]
  | cons c cs ih =>
    rw [reSplit, ih, List.splitOnP_cons]
    cases h : cs.splitOnP sepChar with
    | nil => exact absurd h (List.splitOnP_ne_nil _ cs)
    | cons s ss =>
      by_cases hc : sepChar c
      · simp [hc]
      · simp [hc, List.modifyHead]

/-! ## Shuffle lemmas -/

theorem getElem_cons_set_perm (xs : List Char) :
    ∀ (k : Nat) (hk : k < xs.length) (x : Char), (xs[k] :: xs.set k x).Perm (x :: xs) := by
  induction xs with
  | nil => intro k hk; exact absurd hk (Nat.not_lt_zero k)
  | cons y ys ih =>
    intro k hk x
    cases k with
    | zero => simpa using List.Perm.swap x y ys
    | succ k =>
      have hk' : k < ys.length := Nat.lt_of_succ_lt_succ hk
      simp only [List.getElem_cons_succ, List.set_cons_succ]
      have s1 : (ys[k] :: y :: ys.set k x).Perm (y :: ys[k] :: ys.set k x) :=
        List.Perm.swap y (ys[k]) _
      have s2 : (y :: ys[k] :: ys.set k x).Perm (y :: x :: ys) := (ih k hk' x).cons y
      have s3 : (y :: x :: ys).Perm (x :: y :: ys) := List.Perm.swap x y ys
      exact (s1.trans s2).trans s3

theorem swapL_perm (l : List Char) :
    ∀ i j, i < l.length → j < l.length → (swapL l i j).Perm l := by
  induction l with
  | nil => intro i j hi _; exact absurd hi (Nat.not_lt_zero i)
  | cons y ys ih =>
    intro i j hi hj
    cases i with
    | zero =>
      cases j with
      | zero => simp [swapL]
      | succ k =>
        have hk : k < ys.length := Nat.lt_of_succ_lt_succ hj
        simp only [swapL, List.getD_cons_succ, List.getD_cons_zero, List.set_cons_zero,
          List.set_cons_succ]
        rw [List.getD_eq_getElem ys ' ' hk]
        exact getElem_cons_set_perm ys k hk y
    | succ a =>
      have ha : a < ys.length := Nat.lt_of_succ_lt_succ hi
      cases j with
      | zero =>
        simp only [swapL, List.getD_cons_succ, List.getD_cons_zero, List.set_cons_zero,
          List.set_cons_succ]
        rw [List.getD_eq_getElem ys ' ' ha]
        exact getElem_cons_set_perm ys a ha y
      | succ b =>
        have hb : b < ys.length := Nat.lt_of_succ_lt_succ hj
        simp only [swapL, List.getD_cons_succ, List.set_cons_succ]
        exact (ih a b ha hb).cons y

theorem fyGo_perm (d : Nat → Nat) :
    ∀ (i : Nat) (l : List Char), i < l.length → (fyGo d i l).Perm l := by
  intro i
  induction i with
  | zero => intro l _; exact List.Perm.refl l
  | succ i ih =>
    intro l h
    have hj : d (i + 1) % (i + 2) < l.length := by
      have := Nat.mod_lt (d (i + 1)) (show 0 < i + 2 by omega)
      omega
    have hswap := swapL_perm l (i + 1) (d (i + 1) % (i + 2)) h hj
    have hi : i < (swapL l (i + 1) (d (i + 1) % (i + 2))).length := by
      rw [hswap.length_eq]; omega
    rw [fyGo]
    exact (ih _ hi).trans hswap

theorem pyShuffle_perm (d : Nat → Nat) (l : List Char) : (pyShuffle d l).Perm l := by
  cases l with
  | nil => exact List.Perm.refl _
  | cons x xs =>
    apply fyGo_perm
    simp

theorem pyChoice_mem (s : List Char) (hs : s ≠ []) (n : Nat) : pyChoice s n ∈ s := by
  have hlen : 0 < s.length := List.length_pos.mpr hs
  have h : n % s.length < s.length := Nat.mod_lt n hlen
  rw [pyChoice, List.getD_eq_getElem s ' ' h]
  exact List.getElem_mem h

/-! ## Claim theorems -/

/-- Claim C1 (code bug, evaluation at the failing input): in a sync-job
batch of two valid rows whose first gateway call fails at the transport
level, the whole invocation aborts (`_request` calls `sys.exit(1)`, and
the resulting `SystemExit` is not an `Exception`, so the per-row handler
does not catch it): no `Failed` outcome is recorded for the first row,
the second row is never processed, and no aggregate counts are reported —
contradicting the claim that the row alone fails and processing
continues.  The same holds for a mailbox batch. -/
theorem C1_transport_failure_aborts_batch :
    jobs_add_batch false gwTransportFail
        [["src1@old.com", "pass1", "dest1@new.com"],
         ["src2@old.com", "pass2", "dest2@new.com"]] = none ∧
    mailbox_add_batch false false (fun _ => "") gwTransportFail
        [["john", "John Doe", "secret"]] = none :=
  ⟨rfl, rfl⟩

/-- Claim C2 (counterexample): in a sync-job batch run the response is
never interpreted: a response whose interpretation is a failure
(`[{"type": "error", "msg": "bad"}]`) still yields an accepted/created
outcome for the row, and in single mode the same response still prints
the success message (the response is only tested for truthiness). -/
theorem C2_counterexample_jobs_response_not_interpreted :
    jobs_add_batch false gwError [["src1@old.com", "pass1", "dest1@new.com"]] =
      some ([.accepted [("user1", "src1@old.com"), ("password1", "pass1"),
                        ("username", "dest1@new.com")]], 1) ∧
    jobs_add_single (.ok errorResponse) = some true :=
  ⟨rfl, rfl⟩

/-- Claim C2 (amended): for mailbox, alias and transport runs the
submitted response is interpreted through `_check_response` — only an
interpreted success yields an accepted outcome, and an interpreted
failure yields a `Failed` outcome carrying the interpreted message; for
sync-job runs the response is never interpreted: in batch mode any
returned response yields an accepted/created outcome, and in single mode
the response is only tested for truthiness. -/
theorem C2_amended_response_interpretation :
    ∀ (v : PyVal) (pl : List (String × String)),
      submitResult false pl (.ok v) = some (.accepted pl) ∧
      jobs_add_single (.ok v) = some v.truthy ∧
      (checkSuccess (check_response v) = true →
        submitResult true pl (.ok v) = some (.accepted pl)) ∧
      (∀ m, check_response v = .ok false m →
        submitResult true pl (.ok v) = some (.failed (pyStr m))) := by
  intro v pl
  refine ⟨rfl, rfl, fun h => ?_, fun m h => ?_⟩
  · cases hc : check_response v with
    | ok b m =>
      have hb : b = true := by simpa [checkSuccess, hc] using h
      subst hb
      simp [submitResult, hc]
    | typeError => simp [checkSuccess, hc] at h
  · simp [submitResult, h]

/-- Claim C2 (witness): the amended interpretation at concrete responses —
a structured success reply is accepted, a structured error reply becomes
a `Failed` outcome with the interpreted message. -/
theorem C2_amended_response_interpretation_witness :
    submitResult true [] (.ok successResponse) = some (.accepted []) ∧
    submitResult true [] (.ok errorResponse) = some (.failed "bad") :=
  ⟨(C2_amended_response_interpretation successResponse []).2.2.1 rfl,
   (C2_amended_response_interpretation errorResponse []).2.2.2 (.vstr "bad") rfl⟩

/-- Claim C4: for every completed batch run of any of the four resource
kinds, `success_count + error_count` equals the number of input rows that
are neither blank nor a single recognized first-position header row;
every non-skipped row contributes exactly one outcome. -/
theorem C4_outcome_count_invariant :
    ∀ (rows : List (List String)) (gw : Nat → GwResult) (preview gen : Bool)
      (gpw : Nat → String) (os : List Outcome) (c : Nat),
      (jobs_add_batch preview gw rows = some (os, c) →
        succCount os + errCount os = numCounted jobsHeaderKeys rows 1) ∧
      (mailbox_add_batch preview gen gpw gw rows = some (os, c) →
        succCount os + errCount os = numCounted mailboxHeaderKeys rows 1) ∧
      (alias_add_batch preview gw rows = some (os, c) →
        succCount os + errCount os = numCounted aliasHeaderKeys rows 1) ∧
      (transport_add_batch preview gw rows = some (os, c) →
        succCount os + errCount os = numCounted transportHeaderKeys rows 1) := by
  intro rows gw preview gen gpw os c
  refine ⟨fun h => ?_, fun h => ?_, fun h => ?_, fun h => ?_⟩ <;> rw [succCount_add_errCount]
  · exact runRows_length _ _ _ _ (jobsAction_skip_iff preview) rows 1 0 os c h
  · exact runRows_length _ _ _ _ (mailboxAction_skip_iff preview gen gpw) rows 1 0 os c h
  · exact runRows_length _ _ _ _ (aliasAction_skip_iff preview) rows 1 0 os c h
  · exact runRows_length _ _ _ _ (transportAction_skip_iff preview) rows 1 0 os c h

/-- Claim C4 (witness): the invariant evaluated on the spec's alias
scenario — header row skipped, one accepted row, two rejected rows, so
both sides of the invariant equal 3. -/
theorem C4_outcome_count_invariant_witness :
    succCount [Outcome.rejected "empty address or goto",
               Outcome.rejected "empty address or goto",
               Outcome.accepted [("address", "good@example.com"), ("goto", "dest@example.com")]] +
      errCount [Outcome.rejected "empty address or goto",
                Outcome.rejected "empty address or goto",
                Outcome.accepted [("address", "good@example.com"), ("goto", "dest@example.com")]] =
      numCounted aliasHeaderKeys
        [["address", "goto"], ["alias@example.com", ""], ["", "user@example.com"],
         ["good@example.com", "dest@example.com"]] 1 :=
  (C4_outcome_count_invariant
      [["address", "goto"], ["alias@example.com", ""], ["", "user@example.com"],
       ["good@example.com", "dest@example.com"]]
      gwSuccess false false (fun _ => "")
      [Outcome.rejected "empty address or goto",
       Outcome.rejected "empty address or goto",
       Outcome.accepted [("address", "good@example.com"), ("goto", "dest@example.com")]]
      1).2.2.1 rfl

/-- Claim C5: with preview enabled no gateway call is ever made, for all
four resource kinds: the run always completes with a gateway-call count
of zero, every recorded outcome is a preview/accepted entry or a
validation rejection (never an API failure), and the result does not
depend on the gateway at all. -/
theorem C5_preview_never_calls_gateway :
    ∀ (rows : List (List String)) (gw gw' : Nat → GwResult) (gen : Bool) (gpw : Nat → String),
      ((∃ os, jobs_add_batch true gw rows = some (os, 0) ∧
          ∀ o ∈ os, (∃ pl, o = .accepted pl) ∨ (∃ rsn, o = .rejected rsn)) ∧
        jobs_add_batch true gw rows = jobs_add_batch true gw' rows) ∧
      ((∃ os, mailbox_add_batch true gen gpw gw rows = some (os, 0) ∧
          ∀ o ∈ os, (∃ pl, o = .accepted pl) ∨ (∃ rsn, o = .rejected rsn)) ∧
        mailbox_add_batch true gen gpw gw rows = mailbox_add_batch true gen gpw gw' rows) ∧
      ((∃ os, alias_add_batch true gw rows = some (os, 0) ∧
          ∀ o ∈ os, (∃ pl, o = .accepted pl) ∨ (∃ rsn, o = .rejected rsn)) ∧
        alias_add_batch true gw rows = alias_add_batch true gw' rows) ∧
      ((∃ os, transport_add_batch true gw rows = some (os, 0) ∧
          ∀ o ∈ os, (∃ pl, o = .accepted pl) ∨ (∃ rsn, o = .rejected rsn)) ∧
        transport_add_batch true gw rows = transport_add_batch true gw' rows) := by
  intro rows gw gw' gen gpw
  refine ⟨⟨?_, ?_⟩, ⟨?_, ?_⟩, ⟨?_, ?_⟩, ⟨?_, ?_⟩⟩
  · obtain ⟨os, hos⟩ :=
      runRows_no_submit _ _ gw (fun i r pl => jobsAction_preview_no_submit i r pl) rows 1 0
    exact ⟨os, hos, runRows_no_submit_outcomes _ _ gw
      (fun i r pl => jobsAction_preview_no_submit i r pl) rows 1 0 os 0 hos⟩
  · exact runRows_gw_indep _ _ _ _ (fun i r pl => jobsAction_preview_no_submit i r pl) rows 1 0
  · obtain ⟨os, hos⟩ := runRows_no_submit _ _ gw
      (fun i r pl => mailboxAction_preview_no_submit gen gpw i r pl) rows 1 0
    exact ⟨os, hos, runRows_no_submit_outcomes _ _ gw
      (fun i r pl => mailboxAction_preview_no_submit gen gpw i r pl) rows 1 0 os 0 hos⟩
  · exact runRows_gw_indep _ _ _ _
      (fun i r pl => mailboxAction_preview_no_submit gen gpw i r pl) rows 1 0
  · obtain ⟨os, hos⟩ :=
      runRows_no_submit _ _ gw (fun i r pl => aliasAction_preview_no_submit i r pl) rows 1 0
    exact ⟨os, hos, runRows_no_submit_outcomes _ _ gw
      (fun i r pl => aliasAction_preview_no_submit i r pl) rows 1 0 os 0 hos⟩
  · exact runRows_gw_indep _ _ _ _ (fun i r pl => aliasAction_preview_no_submit i r pl) rows 1 0
  · obtain ⟨os, hos⟩ :=
      runRows_no_submit _ _ gw (fun i r pl => transportAction_preview_no_submit i r pl) rows 1 0
    exact ⟨os, hos, runRows_no_submit_outcomes _ _ gw
      (fun i r pl => transportAction_preview_no_submit i r pl) rows 1 0 os 0 hos⟩
  · exact runRows_gw_indep _ _ _ _ (fun i r pl => transportAction_preview_no_submit i r pl) rows 1 0

/-- Claim C3 (counterexample): the claim says a non-empty list whose
first element is a string always returns false with all elements joined
by single spaces; on `["error", 0]` the code instead raises a `TypeError`
inside `' '.join(result)` (element 0 is not a string), so no
`(false, message)` pair is returned at all. -/
theorem C3_counterexample_join_type_error :
    check_response (.vlist [.vstr "error", .vint 0]) = .typeError ∧
    ∀ b m, check_response (.vlist [.vstr "error", .vint 0]) ≠ .ok b m := by
  refine ⟨rfl, fun b m h => ?_⟩
  have h' : CheckResult.typeError = CheckResult.ok b m := h
  exact CheckResult.noConfusion h'

/-- Claim C3 (amended): `_check_response` returns success exactly on a
non-empty list whose first element is a mapping with `type == "success"`
(agreeing with the spec-shaped predicate `specIsSuccessResponse`); a
falsy response yields `(false, "Empty response")`; a dict-headed list
yields the `msg` field or a rendering of the whole response; a
string-headed list yields false with the elements joined by single
spaces when all elements are strings, and raises a `TypeError`
otherwise; any other truthy shape — a truthy non-list, or a non-empty
list whose first element is neither a mapping nor a string — yields
false with a rendering of the response. -/
theorem C3_amended_check_response_characterization :
    ∀ r : PyVal,
      checkSuccess (check_response r) = specIsSuccessResponse r ∧
      (r.truthy = false → check_response r = .ok false (.vstr "Empty response")) ∧
      (∀ f rest, r = .vlist (.vdict f :: rest) →
        check_response r =
          .ok (isSuccessVal ((pyGet f "type").getD (.vstr "unknown")))
            ((pyGet f "msg").getD (.vstr (pyStr r)))) ∧
      (∀ s rest, r = .vlist (.vstr s :: rest) →
        (∀ strs, allStrs rest = some strs →
          check_response r = .ok false (.vstr (String.intercalate " " (s :: strs)))) ∧
        (allStrs rest = none → check_response r = .typeError)) ∧
      (r.truthy = true → (∀ l, r ≠ .vlist l) → check_response r = .ok false (.vstr (pyStr r))) ∧
      (∀ first rest, r = .vlist (first :: rest) → (∀ f, first ≠ .vdict f) →
        (∀ s, first ≠ .vstr s) → check_response r = .ok false (.vstr (pyStr r))) := by
  intro r
  refine ⟨checkSuccess_eq_spec r, fun h => ?_, fun f rest hr => ?_, fun s rest hr => ?_,
    fun h hne => ?_, fun first rest hr hnd hns => ?_⟩
  · simp [check_response, h]
  · subst hr
    simp [check_response, PyVal.truthy]
  · subst hr
    constructor
    · intro strs hA
      simp [check_response, PyVal.truthy, hA]
    · intro hA
      simp [check_response, PyVal.truthy, hA]
  · cases r with
    | vlist l => exact absurd rfl (hne l)
    | vstr s => simp [check_response, h]
    | vint n => simp [check_response, h]
    | vbool b => simp [check_response, h]
    | vnone => simp [check_response, h]
    | vdict f => simp [check_response, h]
  · subst hr
    cases first with
    | vdict f => exact absurd rfl (hnd f)
    | vstr s => exact absurd rfl (hns s)
    | vint n => rfl
    | vbool b => rfl
    | vnone => rfl
    | vlist l' => rfl

/-- Claim C3 (witness): the amended characterization applied to the
sentinel response `["object_exists", "a@b.com"]` (joined message), to
the empty list (empty-response message), and to the int-headed list
`[0]` (false with the rendering of the whole response). -/
theorem C3_amended_witness :
    check_response (.vlist [.vstr "object_exists", .vstr "a@b.com"]) =
      .ok false (.vstr "object_exists a@b.com") ∧
    check_response (.vlist []) = .ok false (.vstr "Empty response") ∧
    check_response (.vlist [.vint 0]) = .ok false (.vstr "[0]") :=
  ⟨((C3_amended_check_response_characterization
        (.vlist [.vstr "object_exists", .vstr "a@b.com"])).2.2.2.1 "object_exists"
        [.vstr "a@b.com"] rfl).1 ["a@b.com"] rfl,
   (C3_amended_check_response_characterization (.vlist [])).2.1 rfl,
   (C3_amended_check_response_characterization (.vlist [.vint 0])).2.2.2.2.2 (.vint 0) [] rfl
     (fun _ hf => PyVal.noConfusion hf) (fun _ hs => PyVal.noConfusion hs)⟩

/-- Claim C6: the display-name generator agrees on every input with the
spec's description (split on `.`/`_`/`-`, drop empty segments, capitalize
each segment, join with single spaces), and maps the spec's examples as
stated. -/
theorem C6_display_name_generator :
    (∀ lp : String, name_from_local_part lp = specDisplayName lp) ∧
    name_from_local_part "ana.maria.pop" = "Ana Maria Pop" ∧
    name_from_local_part "admin" = "Admin" ∧
    name_from_local_part "john_doe" = "John Doe" ∧
    name_from_local_part "john-doe" = "John Doe" := by
  refine ⟨fun lp => ?_, by decide, by decide, by decide, by decide⟩
  unfold name_from_local_part specDisplayName
  rw [reSplit_eq_splitOnP]

/-- Claim C8: a row is skipped as a header exactly when it is the first
row (index 1), is not all-blank, and its first cell lowercases to one of
the resource kind's header keywords — for all four kinds; the spec's
two-line sync-job CSV yields exactly one outcome with the header row
skipped; and a keyword-matching row at a position other than the first is
processed as data. -/
theorem C8_header_skip_characterization :
    (∀ (preview : Bool) (idx : Nat) (row : List String),
      jobsAction preview idx row = .skipHeader ↔
        (isBlankRow row = false ∧ idx = 1 ∧ jobsHeaderKeys.contains (headLower row) = true)) ∧
    (∀ (preview gen : Bool) (gpw : Nat → String) (idx : Nat) (row : List String),
      mailboxAction preview gen gpw idx row = .skipHeader ↔
        (isBlankRow row = false ∧ idx = 1 ∧ mailboxHeaderKeys.contains (headLower row) = true)) ∧
    (∀ (preview : Bool) (idx : Nat) (row : List String),
      aliasAction preview idx row = .skipHeader ↔
        (isBlankRow row = false ∧ idx = 1 ∧ aliasHeaderKeys.contains (headLower row) = true)) ∧
    (∀ (preview : Bool) (idx : Nat) (row : List String),
      transportAction preview idx row = .skipHeader ↔
        (isBlankRow row = false ∧ idx = 1 ∧ transportHeaderKeys.contains (headLower row) = true)) ∧
    jobs_add_batch false gwSuccess
        [["user1", "password1", "username"], ["src1@old.com", "pass1", "dest1@new.com"]] =
      some ([.accepted [("user1", "src1@old.com"), ("password1", "pass1"),
                        ("username", "dest1@new.com")]], 1) ∧
    jobsAction false 2 ["user1", "password1", "username"] =
      .submit [("user1", "user1"), ("password1", "password1"), ("username", "username")] := by
  refine ⟨fun preview idx row => ?_, fun preview gen gpw idx row => ?_,
    fun preview idx row => ?_, fun preview idx row => ?_, rfl, rfl⟩
  · simp only [jobsAction]
    split_ifs <;> simp_all
  · simp only [mailboxAction]
    split_ifs <;> simp_all
  · simp only [aliasAction]
    split_ifs <;> simp_all
  · simp only [transportAction]
    split_ifs <;> simp_all

/-- Claim C7: for every sequence of draws from the random source, the
password generated at the default length 16 has exactly 16 characters,
each drawn from the alphabet of lowercase letters, uppercase letters,
digits and the special set, and contains at least one character from each
of those four classes. -/
theorem C7_generate_password_properties :
    ∀ d : Nat → Nat,
      (generate_password d 16).length = 16 ∧
      (∀ c ∈ generate_password d 16, c ∈ alphabetChars) ∧
      (∃ c ∈ generate_password d 16, c ∈ lowercaseChars) ∧
      (∃ c ∈ generate_password d 16, c ∈ uppercaseChars) ∧
      (∃ c ∈ generate_password d 16, c ∈ digitChars) ∧
      (∃ c ∈ generate_password d 16, c ∈ specialChars) := by
  intro d
  have hperm : (generate_password d 16).Perm
      ([pyChoice lowercaseChars (d 0), pyChoice uppercaseChars (d 1),
        pyChoice digitChars (d 2), pyChoice specialChars (d 3)] ++
       (List.range 12).map (fun k => pyChoice alphabetChars (d (4 + k)))) :=
    pyShuffle_perm (fun i => d (16 + i)) _
  refine ⟨?_, ?_, ?_, ?_, ?_, ?_⟩
  · rw [hperm.length_eq]
    simp
  · intro c hc
    have hc' := hperm.mem_iff.mp hc
    rcases List.mem_append.mp hc' with hb | hr
    · have hL : pyChoice lowercaseChars (d 0) ∈ alphabetChars := by
        have := pyChoice_mem lowercaseChars (by decide) (d 0)
        simp only [alphabetChars]
        exact List.mem_append_left _ (List.mem_append_left _ (List.mem_append_left _ this))
      have hU : pyChoice uppercaseChars (d 1) ∈ alphabetChars := by
        have := pyChoice_mem uppercaseChars (by decide) (d 1)
        simp only [alphabetChars]
        exact List.mem_append_left _ (List.mem_append_left _ (List.mem_append_right _ this))
      have hD : pyChoice digitChars (d 2) ∈ alphabetChars := by
        have := pyChoice_mem digitChars (by decide) (d 2)
        simp only [alphabetChars]
        exact List.mem_append_left _ (List.mem_append_right _ this)
      have hS : pyChoice specialChars (d 3) ∈ alphabetChars := by
        have := pyChoice_mem specialChars (by decide) (d 3)
        simp only [alphabetChars]
        exact List.mem_append_right _ this
      simp only [List.mem_cons, List.not_mem_nil, or_false] at hb
      rcases hb with rfl | rfl | rfl | rfl
      · exact hL
      · exact hU
      · exact hD
      · exact hS
    · rcases List.mem_map.mp hr with ⟨k, _, hk⟩
      exact hk ▸ pyChoice_mem alphabetChars (by decide) (d (4 + k))
  · exact ⟨pyChoice lowercaseChars (d 0),
      hperm.mem_iff.mpr (List.mem_append_left _ (by simp)),
      pyChoice_mem lowercaseChars (by decide) (d 0)⟩
  · exact ⟨pyChoice uppercaseChars (d 1),
      hperm.mem_iff.mpr (List.mem_append_left _ (by simp)),
      pyChoice_mem uppercaseChars (by decide) (d 1)⟩
  · exact ⟨pyChoice digitChars (d 2),
      hperm.mem_iff.mpr (List.mem_append_left _ (by simp)),
      pyChoice_mem digitChars (by decide) (d 2)⟩
  · exact ⟨pyChoice specialChars (d 3),
      hperm.mem_iff.mpr (List.mem_append_left _ (by simp)),
      pyChoice_mem specialChars (by decide) (d 3)⟩

/-- Claim C9: in a mailbox batch, a present-but-blank password cell is
treated exactly like an absent password column: the row's action is
identical; with generation active the generated password is submitted and
the row proceeds, without it the row is rejected with the no-password
reason; and a non-blank CSV password makes the row's handling independent
of the generator, the submitted password being the trimmed CSV value. -/
theorem C9_blank_password_cell :
    ∀ (preview gen gen' : Bool) (gpw gpw' : Nat → String) (idx : Nat) (lp nm p : String),
      (pyStrip p = "" →
        mailboxAction preview gen gpw idx [lp, nm, p] =
          mailboxAction preview gen gpw idx [lp, nm]) ∧
      (pyStrip p = "" → pyStrip lp ≠ "" →
        countedRow mailboxHeaderKeys idx [lp, nm, p] = true →
        actionPassword (mailboxAction preview true gpw idx [lp, nm, p]) = some (gpw idx)) ∧
      (pyStrip p = "" → pyStrip lp ≠ "" →
        countedRow mailboxHeaderKeys idx [lp, nm, p] = true →
        mailboxAction preview false gpw idx [lp, nm, p] =
          .reject "no password (use --gen-password)") ∧
      (pyStrip p ≠ "" →
        mailboxAction preview gen gpw idx [lp, nm, p] =
          mailboxAction preview gen' gpw' idx [lp, nm, p]) ∧
      (pyStrip p ≠ "" → pyStrip lp ≠ "" →
        countedRow mailboxHeaderKeys idx [lp, nm, p] = true →
        actionPassword (mailboxAction preview gen gpw idx [lp, nm, p]) = some (pyStrip p)) := by
  intro preview gen gen' gpw gpw' idx lp nm p
  have hcrP : countedRow mailboxHeaderKeys idx [lp, nm, p] = true →
      isBlankRow [lp, nm, p] = false ∧
        ¬(idx = 1 ∧ headLower [lp, nm, p] ∈ mailboxHeaderKeys) := by
    intro hcr
    rw [countedRow, Bool.and_eq_true, Bool.not_eq_true', Bool.not_eq_true'] at hcr
    obtain ⟨hb, hh⟩ := hcr
    refine ⟨hb, ?_⟩
    rintro ⟨rfl, hmem⟩
    simp [hmem] at hh
  refine ⟨fun hp => ?_, fun hp hlp hcr => ?_, fun hp hlp hcr => ?_, fun hp => ?_,
    fun hp hlp hcr => ?_⟩
  · simp [mailboxAction, isBlankRow, headLower, hp]
  · obtain ⟨hb, hh⟩ := hcrP hcr
    by_cases hpv : preview <;>
      simp [mailboxAction, hb, hh, hp, hlp, hpv, actionPassword, RowAction.payload, fieldOf,
        List.find?]
  · obtain ⟨hb, hh⟩ := hcrP hcr
    simp [mailboxAction, hb, hh, hp, hlp]
  · simp [mailboxAction, hp]
  · obtain ⟨hb, hh⟩ := hcrP hcr
    by_cases hpv : preview <;>
      simp [mailboxAction, hb, hh, hp, hlp, hpv, actionPassword, RowAction.payload, fieldOf,
        List.find?]

/-- Claim C9 (witness): the properties at a concrete row — a blank
password cell with generation active submits the generated password, and
without generation the row is rejected. -/
theorem C9_blank_password_cell_witness :
    actionPassword (mailboxAction false true (fun _ => "G3n!") 2 ["john", "", " "]) =
      some "G3n!" ∧
    mailboxAction false false (fun _ => "G3n!") 2 ["john", "", " "] =
      .reject "no password (use --gen-password)" ∧
    actionPassword (mailboxAction false false (fun _ => "G3n!") 2 ["john", "", "pw1"]) =
      some "pw1" :=
  ⟨(C9_blank_password_cell false true true (fun _ => "G3n!") (fun _ => "G3n!") 2
      "john" "" " ").2.1 rfl (by decide) rfl,
   (C9_blank_password_cell false false false (fun _ => "G3n!") (fun _ => "G3n!") 2
      "john" "" " ").2.2.1 rfl (by decide) rfl,
   (C9_blank_password_cell false false false (fun _ => "G3n!") (fun _ => "G3n!") 2
      "john" "" "pw1").2.2.2.2 (by decide) (by decide) rfl⟩

/-- Claim C10 (counterexample): two sync-job rows agreeing on all three
consumed cells (all blank) do not produce identical outcomes when one has
a non-blank extra trailing cell: the bare row is silently skipped by the
all-cells blank check (no outcome), while the row with the extra cell is
processed and rejected. -/
theorem C10_counterexample_extra_cell_changes_outcome :
    jobs_add_batch false gwSuccess [["", "", ""]] = some ([], 0) ∧
    jobs_add_batch false gwSuccess [["", "", "", "x"]] =
      some ([.rejected "empty required field"], 0) :=
  ⟨rfl, rfl⟩

/-- Claim C10 (amended): for a row with exactly the kind's consumed
number of cells and at least one non-blank cell among them (so that the
all-cells blank-row check cannot fire), extra trailing cells never
influence the row's action — hence neither the submitted request nor the
outcome — for all four resource kinds. -/
theorem C10_amended_extra_cells_ignored :
    ∀ (preview gen : Bool) (gpw : Nat → String) (idx : Nat) (r extra : List String),
      (r.length = 3 → (∃ cell ∈ r, pyStrip cell ≠ "") →
        jobsAction preview idx (r ++ extra) = jobsAction preview idx r) ∧
      (r.length = 3 → (∃ cell ∈ r, pyStrip cell ≠ "") →
        mailboxAction preview gen gpw idx (r ++ extra) = mailboxAction preview gen gpw idx r) ∧
      (r.length = 2 → (∃ cell ∈ r, pyStrip cell ≠ "") →
        aliasAction preview idx (r ++ extra) = aliasAction preview idx r) ∧
      (r.length = 4 → (∃ cell ∈ r, pyStrip cell ≠ "") →
        transportAction preview idx (r ++ extra) = transportAction preview idx r) := by
  intro preview gen gpw idx r extra
  have core : ∀ hlen : 0 < r.length, (∃ cell ∈ r, pyStrip cell ≠ "") →
      isBlankRow (r ++ extra) = false ∧ isBlankRow r = false ∧
        headLower (r ++ extra) = headLower r ∧
        (∀ i, i < r.length → (r ++ extra).getD i "" = r.getD i "") := by
    intro hlen hex
    rcases hex with ⟨cell, hm, hne⟩
    have hall : r.all (fun c => pyStrip c == "") = false := by
      by_contra hba
      rw [Bool.not_eq_false] at hba
      have := List.all_eq_true.mp hba cell hm
      simp [hne] at this
    have halle : (r ++ extra).all (fun c => pyStrip c == "") = false := by
      by_contra hba
      rw [Bool.not_eq_false] at hba
      have := List.all_eq_true.mp hba cell (List.mem_append_left _ hm)
      simp [hne] at this
    rcases r with _ | ⟨a, rest⟩
    · simp at hlen
    · refine ⟨?_, ?_, rfl, ?_⟩
      · rw [isBlankRow, halle]
        simp
      · rw [isBlankRow, hall]
        simp
      · intro i hi
        rw [List.getD_eq_getElem?_getD, List.getD_eq_getElem?_getD, List.getElem?_append,
          if_pos hi]
  refine ⟨fun hlen hex => ?_, fun hlen hex => ?_, fun hlen hex => ?_, fun hlen hex => ?_⟩
  · obtain ⟨hbe, hb, hhd, hget⟩ := core (by omega) hex
    simp only [jobsAction]
    rw [hbe, hb, hhd, hget 0 (by omega), hget 1 (by omega), hget 2 (by omega),
      List.length_append, hlen]
    have h1 : ¬(3 + extra.length < 3) := by omega
    simp [h1]
  · obtain ⟨hbe, hb, hhd, hget⟩ := core (by omega) hex
    simp only [mailboxAction]
    rw [hbe, hb, hhd, hget 0 (by omega), hget 1 (by omega), hget 2 (by omega),
      List.length_append, hlen]
    have h1 : 1 < 3 + extra.length := by omega
    have h2 : 2 < 3 + extra.length := by omega
    simp [h1, h2]
  · obtain ⟨hbe, hb, hhd, hget⟩ := core (by omega) hex
    simp only [aliasAction]
    rw [hbe, hb, hhd, hget 0 (by omega), hget 1 (by omega), List.length_append, hlen]
    have h1 : ¬(2 + extra.length < 2) := by omega
    simp [h1]
  · obtain ⟨hbe, hb, hhd, hget⟩ := core (by omega) hex
    simp only [transportAction]
    rw [hbe, hb, hhd, hget 0 (by omega), hget 1 (by omega), hget 2 (by omega),
      hget 3 (by omega), List.length_append, hlen]
    have h1 : ¬(4 + extra.length < 2) := by omega
    have h2 : 2 < 4 + extra.length := by omega
    have h3 : 3 < 4 + extra.length := by omega
    simp [h1, h2, h3]

/-- Claim C10 (witness): the amended property at a concrete sync-job row
with one extra trailing cell. -/
theorem C10_amended_extra_cells_ignored_witness :
    jobsAction false 2 ["u@a.com", "pw", "d@b.com", "ignored"] =
      jobsAction false 2 ["u@a.com", "pw", "d@b.com"] :=
  (C10_amended_extra_cells_ignored false false (fun _ => "") 2
      ["u@a.com", "pw", "d@b.com"] ["ignored"]).1 rfl
    ⟨"u@a.com", by decide, by decide⟩

end Mailcow
